import Mathlib

/-!
Formal model of `src/pyfmt/__init__.py`: the exclusion-resolution and
formatter-orchestration logic of the `pyfmt` command-line wrapper.

Modelling conventions:
* A Python string is a Lean `String`; `str.split(c)` is `pySplit`,
  `sep.join(xs)` is `pyJoin`, string concatenation is `++`.
* The working directory tree observed by `os.walk(".")` is a value of type
  `FS`: the list of file paths and the list of directory paths, each path
  given as its component list relative to the walk root.  Comparison of
  `os.path.abspath(item)` against the stored absolute directory paths,
  under one fixed working directory, is modelled by equality of the
  relative component lists.
* `sys.exit()` (no argument) terminates the process with exit status 0;
  it is modelled by `PyfmtOutcome.exited 0`.
* Child processes are not executed: the environment supplies the exit code
  each formatter would return, and the model records which formatters are
  spawned, in order.
-/

namespace PyfmtSpec

/-- Python `str.split(c)` for a one-character separator, on char lists:
always returns a non-empty list of (possibly empty) chunks. -/
def splitOnChar (c : Char) : List Char → List (List Char)
  | [] => [[]]
  | x :: xs =>
    match splitOnChar c xs with
    | [] => [[]]
    | r :: rs => if x = c then [] :: r :: rs else (x :: r) :: rs

/-- Python `s.split(c)` for a one-character separator `c`. -/
def pySplit (c : Char) (s : String) : List String :=
  (splitOnChar c s.data).map String.mk

/-- Python `sep.join(xs)`. -/
def pyJoin (sep : String) : List String → String
  | [] => ""
  | [x] => x
  | x :: y :: xs => x ++ sep ++ pyJoin sep (y :: xs)

/-- Python `item.split(".")[-1]`: the text after the last dot, or the whole
string when there is no dot. -/
def lastExt (s : String) : String := (pySplit '.' s).getLastD ""

/-- The directory tree seen by `os.walk(".")`: every file and every
directory, as component paths relative to the walk root. -/
structure FS where
  files : List (List String)
  dirs : List (List String)
  deriving DecidableEq

/-- `find_all_files_and_dirs`, first result: the base name of every file
anywhere under the root.  The source deduplicates with `set`, which only
scrambles order; only membership is used downstream. -/
def allFiles (fs : FS) : List String := fs.files.map (fun p => p.getLastD "")

/-- `find_all_files_and_dirs`, second result: every directory path.  The
source stores absolute paths; with a fixed working directory these are in
bijection with the relative component paths used here. -/
def allDirs (fs : FS) : List (List String) := fs.dirs

/-- Path `d` is an ancestor of (or equal to) path `p`: the components of
`d` are an initial segment of those of `p`.  `os.walk(item)` visits exactly
the files whose path extends `item`'s path. -/
def dirLeads : List String → List String → Bool
  | [], _ => true
  | _ :: _, [] => false
  | x :: d, y :: p => x == y && dirLeads d p

/-- The `os.walk(item)` loop body in `pyfmt`: the base names of all files
under directory `d`, kept when the extension is `py` or `pyi`. -/
def walkPyFiles (fs : FS) (d : List String) : List String :=
  ((fs.files.filter (fun p => dirLeads d p)).map (fun p => p.getLastD "")).filter
    (fun n => lastExt n == "py" || lastExt n == "pyi")

/-- One iteration of the `for item in skips` loop in `pyfmt`: `some` list
of filenames the item contributes, or `none` for the fatal `sys.exit()`
branch. -/
def resolveItem (fs : FS) (item : String) : Option (List String) :=
  if item ∈ allFiles fs then
    if lastExt item = "py" then some [item] else some []
  else if pySplit '/' item ∈ allDirs fs then
    some (walkPyFiles fs (pySplit '/' item))
  else
    none

/-- The whole `for item in skips` loop: the accumulated
`filenames_to_skip`, or `none` if any item hits the fatal branch. -/
def resolveSkips (fs : FS) : List String → Option (List String)
  | [] => some []
  | item :: rest =>
    match resolveItem fs item with
    | none => none
    | some g =>
      match resolveSkips fs rest with
      | none => none
      | some r => some (g ++ r)

/-- The string `"--skip=" + " --skip=".join(filenames_to_skip)`. -/
def isortSkipStr (fns : List String) : String :=
  "--skip=" ++ pyJoin " --skip=" fns

/-- The string `black_filenames_to_skip = "--exclude=" + "|".join(filenames_to_skip)`. -/
def blackSkipStr (fns : List String) : String :=
  "--exclude=" ++ pyJoin "|" fns

/-- What the source appends to `extra_black_args`:
`"--exclude=" + black_filenames_to_skip` — note the doubled prefix. -/
def blackSkipAppend (fns : List String) : String :=
  "--exclude=" ++ blackSkipStr fns

/-- The parameters of the `pyfmt` function (banner and timing cosmetics
omitted). -/
structure Config where
  path : String
  skip : String
  isort : Bool
  black : Bool
  check : Bool
  line_length : Nat
  extra_isort_args : String
  extra_black_args : String
  deriving DecidableEq

/-- The two external formatters. -/
inductive Tool where
  | isort
  | black
  deriving DecidableEq

/-- The observable outcome of one `pyfmt` run: either the process ended by
`sys.exit` during exclusion resolution, or `pyfmt` returned, having
spawned the recorded formatters in order, with the given return value and
final extra-argument strings. -/
inductive PyfmtOutcome where
  | exited (status : Int)
  | returned (spawned : List Tool) (code : Int) (extra_isort extra_black : String)
  deriving DecidableEq

/-- The formatters spawned during the run (none on the exit path). -/
def spawnedOf : PyfmtOutcome → List Tool
  | .exited _ => []
  | .returned s _ _ _ => s

/-- Whether `pyfmt` ran to completion and returned. -/
def isReturned : PyfmtOutcome → Bool
  | .exited _ => false
  | .returned _ _ _ _ => true

/-- Python `a or b` on integers: `a` if non-zero, else `b`. -/
def pyOr (a b : Int) : Int := if a ≠ 0 then a else b

/-- The `isort_black_run` selection: `[True, True]`, overridden to
`[True, False]` when `isort` is set, then to `[False, True]` when `black`
is set. -/
def runFlags (cfg : Config) : Bool × Bool :=
  if cfg.black then (false, true)
  else if cfg.isort then (true, false)
  else (true, true)

/-- The `if skip:` block of `pyfmt`: the pair of extra-argument strings
after the exclusion flags are appended, or `none` when some skip item hits
the fatal branch. -/
def skipPhase (fs : FS) (cfg : Config) : Option (String × String) :=
  if cfg.skip = "" then some (cfg.extra_isort_args, cfg.extra_black_args)
  else
    match resolveSkips fs (pySplit ',' cfg.skip) with
    | none => none
    | some fns =>
      some (cfg.extra_isort_args ++ isortSkipStr fns,
            cfg.extra_black_args ++ blackSkipAppend fns)

/-- The `pyfmt` function.  `isortExit` and `blackExit` are the exit codes
the two child processes would return if spawned. -/
def pyfmt (fs : FS) (cfg : Config) (isortExit blackExit : Int) : PyfmtOutcome :=
  match skipPhase fs cfg with
  | none => .exited 0
  | some p =>
    let ei := if cfg.check then p.1 ++ " --check-only" else p.1
    let eb := if cfg.check then p.2 ++ " --check" else p.2
    let r := runFlags cfg
    .returned
      ((if r.1 then [Tool.isort] else []) ++ (if r.2 then [Tool.black] else []))
      (pyOr (if r.1 then isortExit else 0) (if r.2 then blackExit else 0))
      ei eb

/-- The per-item contribution in the specification's wording (§4.1 of the
spec): a base-name match with extension `py` contributes the item itself;
otherwise a directory match contributes every `py`/`pyi` file under it,
recursively; the spec's stated edge-case policy keeps a base-name match
with a non-`py` extension silent and empty. -/
def specItemFiles (fs : FS) (item : String) : List String :=
  if item ∈ allFiles fs then
    if lastExt item = "py" then [item] else []
  else if pySplit '/' item ∈ allDirs fs then
    walkPyFiles fs (pySplit '/' item)
  else
    []

/-- The specification's resolved exclusion set: the union over the skip
items of each item's contribution. -/
def specResolvedSet (fs : FS) (items : List String) : Finset String :=
  items.foldr (fun it acc => (specItemFiles fs it).toFinset ∪ acc) ∅

/-- The concrete scenario of the spec's §8: `foo.py` at top level, `subdir`
containing `a.py`, `b.pyi`, `c.txt`. -/
def exFS : FS :=
  ⟨[["foo.py"], ["subdir", "a.py"], ["subdir", "b.pyi"], ["subdir", "c.txt"]],
   [["subdir"]]⟩

/-- A character other than the space separator.  `run_formatter` splits
the fully assembled command string with `shlex.split`; on strings without
quote or escape characters — as produced here — that is splitting on runs
of whitespace, and the only whitespace the assembly can introduce is the
plain space. -/
def notSpace (c : Char) : Bool := !(c == ' ')

/-- Whitespace tokenisation, accumulator style: `cur` holds the reversed
characters of the token currently being read. -/
def wgo : List Char → List Char → List (List Char)
  | cur, [] => if cur = [] then [] else [cur.reverse]
  | cur, c :: cs =>
    if c = ' ' then
      if cur = [] then wgo [] cs else cur.reverse :: wgo [] cs
    else wgo (c :: cur) cs

/-- The same traversal split into the tokens already emitted and the
pending accumulator, which composes over list append. -/
def wgoP : List Char → List Char → List (List Char) × List Char
  | cur, [] => ([], cur)
  | cur, c :: cs =>
    if c = ' ' then
      if cur = [] then wgoP [] cs
      else (cur.reverse :: (wgoP [] cs).1, (wgoP [] cs).2)
    else wgoP (c :: cur) cs

/-- The argv-style token list obtained from a command fragment by
whitespace splitting (the `shlex.split` step of `run_formatter` on
quote-free input). -/
def wtokens (s : String) : List String := (wgo [] s.data).map String.mk

theorem resolveSkips_eq_none (fs : FS) {item : String} {l : List String}
    (hmem : item ∈ l) (hbad : resolveItem fs item = none) :
    resolveSkips fs l = none := by
  induction l with
  | nil => cases hmem
  | cons x xs ih =>
    rcases List.mem_cons.mp hmem with h | h
    · subst h
      simp [resolveSkips, hbad]
    · cases hx : resolveItem fs x <;> simp [resolveSkips, hx, ih h]

/-- C1: on an unresolvable skip item the source reaches `sys.exit()` with
no argument, so the process exit status is 0 rather than the non-zero
status the claim requires: evaluated on an empty tree with `skip="nope"`. -/
theorem unresolvable_exit_status_is_zero :
    pyfmt ⟨[], []⟩ ⟨".", "nope", false, false, false, 100, "", ""⟩ 0 0 =
      PyfmtOutcome.exited 0 := by
  decide

/-- C2: whenever the (non-empty) skip string contains an item that matches
neither a discovered file base-name nor a discovered directory, the run
stops in the exclusion-resolution phase and no formatter child process is
spawned. -/
theorem unresolvable_skip_no_spawn (fs : FS) (cfg : Config) (i b : Int)
    (item : String) (hne : cfg.skip ≠ "")
    (hmem : item ∈ pySplit ',' cfg.skip)
    (hbad : resolveItem fs item = none) :
    isReturned (pyfmt fs cfg i b) = false ∧ spawnedOf (pyfmt fs cfg i b) = [] := by
  have hsk : resolveSkips fs (pySplit ',' cfg.skip) = none :=
    resolveSkips_eq_none fs hmem hbad
  have hsp : skipPhase fs cfg = none := by
    simp [skipPhase, hne, hsk]
  simp [pyfmt, hsp, isReturned, spawnedOf]

/-- Witness for C2 on the concrete tree `exFS` with `skip="nope"`. -/
theorem unresolvable_skip_no_spawn_witness :
    isReturned (pyfmt exFS ⟨".", "nope", false, false, false, 100, "", ""⟩ 1 1) = false ∧
      spawnedOf (pyfmt exFS ⟨".", "nope", false, false, false, 100, "", ""⟩ 1 1) = [] :=
  unresolvable_skip_no_spawn exFS ⟨".", "nope", false, false, false, 100, "", ""⟩ 1 1
    "nope" (by decide) (by decide) (by decide)

/-- C3 fails as stated: with both `isort=True` and `black=True`, the import
sorter is not among the spawned formatters, so it is false that both
formatters run. -/
theorem both_flags_isort_not_spawned :
    Tool.isort ∉
      spawnedOf (pyfmt ⟨[], []⟩ ⟨".", "", true, true, false, 100, "", ""⟩ 0 0) := by
  decide

/-- C3 (amended): when `isort` and `black` are both set, the `black`
assignment overrides the `isort` one and the style formatter alone is
spawned. -/
theorem both_flags_only_black_runs (fs : FS) (cfg : Config) (i b : Int)
    (hi : cfg.isort = true) (hb : cfg.black = true)
    (s : List Tool) (c : Int) (ei eb : String)
    (hrun : pyfmt fs cfg i b = .returned s c ei eb) :
    s = [Tool.black] := by
  unfold pyfmt at hrun
  cases hsp : skipPhase fs cfg <;> rw [hsp] at hrun
  · exact absurd hrun (by simp)
  · simp only [runFlags, hb, if_true] at hrun
    exact (PyfmtOutcome.returned.injEq _ _ _ _ _ _ _ _ ▸ hrun).1.symm

/-- Witness for the amended C3 on concrete inputs: both flags set, empty
skip, and only the black formatter is spawned. -/
theorem both_flags_only_black_runs_witness :
    pyfmt ⟨[], []⟩ ⟨".", "", true, true, false, 100, "", ""⟩ 3 0 =
        PyfmtOutcome.returned [Tool.black] 0 "" "" ∧
      [Tool.black] = [Tool.black] :=
  ⟨by decide,
   both_flags_only_black_runs ⟨[], []⟩ ⟨".", "", true, true, false, 100, "", ""⟩ 3 0
     rfl rfl [Tool.black] 0 "" "" (by decide)⟩

/-- C6: for a run of `pyfmt` that returns, the return value is the Python
`or` of the two per-formatter exit codes, a formatter that was not spawned
contributing 0; in particular the return value is non-zero iff some
spawned formatter exited non-zero. -/
theorem return_code_is_or (fs : FS) (cfg : Config) (i b : Int)
    (s : List Tool) (c : Int) (ei eb : String)
    (hrun : pyfmt fs cfg i b = .returned s c ei eb) :
    c = pyOr (if Tool.isort ∈ s then i else 0) (if Tool.black ∈ s then b else 0) ∧
      (c ≠ 0 ↔ (Tool.isort ∈ s ∧ i ≠ 0) ∨ (Tool.black ∈ s ∧ b ≠ 0)) := by
  unfold pyfmt at hrun
  cases hsp : skipPhase fs cfg <;> rw [hsp] at hrun
  · exact absurd hrun (by simp)
  · have hs := (PyfmtOutcome.returned.injEq _ _ _ _ _ _ _ _ ▸ hrun).1
    have hc := (PyfmtOutcome.returned.injEq _ _ _ _ _ _ _ _ ▸ hrun).2.1
    subst hc
    unfold runFlags at hs ⊢
    cases hb : cfg.black <;> cases hi : cfg.isort <;>
      simp [hb, hi] at hs <;> subst hs <;>
      constructor
    · simp [pyOr]
    · by_cases hiz : i = 0 <;> by_cases hbz : b = 0 <;> simp [pyOr, hiz, hbz]
    · simp [pyOr]
    · simp [pyOr]
    · simp [pyOr]
    · simp [pyOr]
    · simp [pyOr]
    · by_cases hbz : b = 0 <;> simp [pyOr, hbz]

/-- Witness for C6 on concrete inputs: both formatters spawned, isort
exiting 1 and black exiting 0, so the run returns 1. -/
theorem return_code_is_or_witness :
    pyfmt ⟨[], []⟩ ⟨".", "", false, false, false, 100, "", ""⟩ 1 0 =
        PyfmtOutcome.returned [Tool.isort, Tool.black] 1 "" "" ∧
      ((1 : Int) = pyOr (if Tool.isort ∈ [Tool.isort, Tool.black] then (1 : Int) else 0)
          (if Tool.black ∈ [Tool.isort, Tool.black] then (0 : Int) else 0) ∧
        ((1 : Int) ≠ 0 ↔
          (Tool.isort ∈ [Tool.isort, Tool.black] ∧ (1 : Int) ≠ 0) ∨
            (Tool.black ∈ [Tool.isort, Tool.black] ∧ (0 : Int) ≠ 0))) :=
  ⟨by decide,
   return_code_is_or ⟨[], []⟩ ⟨".", "", false, false, false, 100, "", ""⟩ 1 0
     [Tool.isort, Tool.black] 1 "" "" (by decide)⟩

/-- C7: for a run of `pyfmt` that returns, the spawned child processes are
exactly the import sorter when only `isort` is set, exactly the style
formatter when only `black` is set, and both — import sorter first — when
neither flag is set. -/
theorem spawn_selection (fs : FS) (cfg : Config) (i b : Int)
    (s : List Tool) (c : Int) (ei eb : String)
    (hrun : pyfmt fs cfg i b = .returned s c ei eb) :
    (cfg.isort = true → cfg.black = false → s = [Tool.isort]) ∧
      (cfg.black = true → cfg.isort = false → s = [Tool.black]) ∧
      (cfg.isort = false → cfg.black = false → s = [Tool.isort, Tool.black]) := by
  unfold pyfmt at hrun
  cases hsp : skipPhase fs cfg <;> rw [hsp] at hrun
  · exact absurd hrun (by simp)
  · have hs := (PyfmtOutcome.returned.injEq _ _ _ _ _ _ _ _ ▸ hrun).1
    unfold runFlags at hs
    cases hb : cfg.black <;> cases hi : cfg.isort <;>
      simp [hb, hi] at hs <;> simp [hb, hi, hs]

/-- Witness for C7 on concrete inputs: only `isort` set, and exactly the
sorter of imports is spawned. -/
theorem spawn_selection_witness :
    pyfmt ⟨[], []⟩ ⟨".", "", true, false, false, 100, "", ""⟩ 0 0 =
        PyfmtOutcome.returned [Tool.isort] 0 "" "" ∧
      ((true = true → false = false → [Tool.isort] = [Tool.isort]) ∧
        (false = true → true = false → [Tool.isort] = [Tool.black]) ∧
        (true = false → false = false → [Tool.isort] = [Tool.isort, Tool.black])) :=
  ⟨by decide,
   spawn_selection ⟨[], []⟩ ⟨".", "", true, false, false, 100, "", ""⟩ 0 0
     [Tool.isort] 0 "" "" (by decide)⟩

/-- C8: for a run of `pyfmt` that returns, with `check=True` the final
extra-argument strings are the post-exclusion strings with exactly
`" --check-only"` (isort) and `" --check"` (black) appended, and with
`check=False` they are unchanged. -/
theorem check_flag_handling (fs : FS) (cfg : Config) (i b : Int)
    (s : List Tool) (c : Int) (ei eb : String) (p : String × String)
    (hsp : skipPhase fs cfg = some p)
    (hrun : pyfmt fs cfg i b = .returned s c ei eb) :
    (cfg.check = true → ei = p.1 ++ " --check-only" ∧ eb = p.2 ++ " --check") ∧
      (cfg.check = false → ei = p.1 ∧ eb = p.2) := by
  unfold pyfmt at hrun
  rw [hsp] at hrun
  have h := PyfmtOutcome.returned.injEq _ _ _ _ _ _ _ _ ▸ hrun
  cases hc : cfg.check <;> simp [hc] at h <;> simp [hc, h.2.2.1, h.2.2.2]

/-- Witness for C8 on concrete inputs: `check=True` with empty skip list,
so the check flags are appended to the user-provided extra arguments. -/
theorem check_flag_handling_witness :
    skipPhase ⟨[], []⟩ ⟨".", "", false, false, true, 100, "-v", "-q"⟩ = some ("-v", "-q") ∧
      pyfmt ⟨[], []⟩ ⟨".", "", false, false, true, 100, "-v", "-q"⟩ 0 0 =
        PyfmtOutcome.returned [Tool.isort, Tool.black] 0 "-v --check-only" "-q --check" ∧
      ((true = true →
          "-v --check-only" = "-v" ++ " --check-only" ∧ "-q --check" = "-q" ++ " --check") ∧
        (true = false → "-v --check-only" = "-v" ∧ "-q --check" = "-q")) :=
  ⟨by decide, by decide,
   check_flag_handling ⟨[], []⟩ ⟨".", "", false, false, true, 100, "-v", "-q"⟩ 0 0
     [Tool.isort, Tool.black] 0 "-v --check-only" "-q --check" ("-v", "-q")
     (by decide) (by decide)⟩

/-- C9: a skip item matching a discovered file base-name but with a
non-`py` extension contributes nothing to the resolved set, raises no
error, and a run whose skip list is that single item still proceeds to the
formatter phase. -/
theorem wrong_extension_silent (fs : FS) (item : String) (cfg : Config) (i b : Int)
    (hfile : item ∈ allFiles fs) (hext : lastExt item ≠ "py")
    (hsingle : pySplit ',' item = [item]) (hskip : cfg.skip = item) :
    resolveItem fs item = some [] ∧ isReturned (pyfmt fs cfg i b) = true := by
  have h1 : resolveItem fs item = some [] := by
    simp [resolveItem, hfile, hext]
  refine ⟨h1, ?_⟩
  by_cases h0 : item = ""
  · subst h0
    simp [pyfmt, skipPhase, hskip, isReturned]
  · have hne : cfg.skip ≠ "" := by rw [hskip]; exact h0
    have hsk : resolveSkips fs (pySplit ',' cfg.skip) = some [] := by
      rw [hskip, hsingle]
      simp [resolveSkips, h1]
    simp [pyfmt, skipPhase, hne, hsk, isReturned]

/-- Witness for C9: `notes.txt` exists in the tree, is silently not
excluded, and the single-item run proceeds. -/
theorem wrong_extension_silent_witness :
    resolveItem ⟨[["notes.txt"]], []⟩ "notes.txt" = some [] ∧
      isReturned
        (pyfmt ⟨[["notes.txt"]], []⟩
          ⟨".", "notes.txt", false, false, false, 100, "", ""⟩ 0 0) = true :=
  wrong_extension_silent ⟨[["notes.txt"]], []⟩ "notes.txt"
    ⟨".", "notes.txt", false, false, false, 100, "", ""⟩ 0 0
    (by decide) (by decide) (by decide) (by decide)

theorem resolveItem_eq_specItemFiles (fs : FS) (it : String) (g : List String)
    (h : resolveItem fs it = some g) : specItemFiles fs it = g := by
  unfold resolveItem at h
  unfold specItemFiles
  split_ifs at h ⊢ <;> simp_all

/-- C5: when every skip item resolves, the set of resolved exclusion
filenames produced by the loop equals the union, over the skip items, of
the specification's per-item contribution (the item itself for a `py`
base-name match, all `py`/`pyi` files under the directory for a directory
match). -/
theorem resolved_set_eq_spec_union (fs : FS) (items : List String) (fns : List String)
    (h : resolveSkips fs items = some fns) :
    fns.toFinset = specResolvedSet fs items := by
  induction items generalizing fns with
  | nil =>
    simp [resolveSkips] at h
    subst h
    simp [specResolvedSet]
  | cons it rest ih =>
    cases hit : resolveItem fs it with
    | none => simp [resolveSkips, hit] at h
    | some g =>
      cases hrest : resolveSkips fs rest with
      | none => simp [resolveSkips, hit, hrest] at h
      | some r =>
        simp only [resolveSkips, hit, hrest, Option.some.injEq] at h
        subst h
        have hg := resolveItem_eq_specItemFiles fs it g hit
        show (g ++ r).toFinset = (specItemFiles fs it).toFinset ∪ specResolvedSet fs rest
        rw [List.toFinset_append, hg, ih r hrest]

/-- Witness for C5: the spec's concrete scenario — `skip="foo.py,subdir"`
with `foo.py` at top level and `subdir` containing `a.py`, `b.pyi`,
`c.txt` — resolves to exactly the set of `foo.py`, `a.py`, `b.pyi`. -/
theorem resolved_set_eq_spec_union_witness :
    resolveSkips exFS (pySplit ',' "foo.py,subdir") = some ["foo.py", "a.py", "b.pyi"] ∧
      (["foo.py", "a.py", "b.pyi"] : List String).toFinset =
        specResolvedSet exFS (pySplit ',' "foo.py,subdir") :=
  ⟨by decide,
   resolved_set_eq_spec_union exFS (pySplit ',' "foo.py,subdir")
     ["foo.py", "a.py", "b.pyi"] (by decide)⟩

/-- C4 fails as stated for the style formatter: already for the single
resolved filename `foo.py`, the string appended to `extra_black_args` is
not one `--exclude=` flag whose value is the joined filenames — the code
appends `--exclude=` to `black_filenames_to_skip`, which itself already
starts with `--exclude=`. -/
theorem black_flag_not_single_clean :
    blackSkipAppend ["foo.py"] ≠ "--exclude=" ++ pyJoin "|" ["foo.py"] := by
  decide

/-- C4 (amended): for a non-empty resolved filename list, the import
sorter receives one `--skip=` flag per filename, space separated, while
the string appended for the style formatter is a single exclusion token
that carries a doubled `--exclude=--exclude=` prefix in front of the
`|`-joined filenames. -/
theorem skip_flag_translation (f : String) (rest : List String) :
    isortSkipStr (f :: rest) =
        pyJoin " " ((f :: rest).map (fun g => "--skip=" ++ g)) ∧
      blackSkipAppend (f :: rest) =
        "--exclude=--exclude=" ++ pyJoin "|" (f :: rest) := by
  constructor
  · induction rest generalizing f with
    | nil => rfl
    | cons g t ih =>
      simp only [List.map, pyJoin]
      rw [← List.map_cons, ← ih g]
      apply String.ext
      simp only [isortSkipStr, pyJoin, String.data_append, List.append_assoc]
      have hsep : (" --skip=" : String).data = ' ' :: "--skip=".data := rfl
      have hone : (" " : String).data = [' '] := rfl
      simp [hsep, hone]
  · show "--exclude=" ++ ("--exclude=" ++ pyJoin "|" (f :: rest)) = _
    rw [← String.append_assoc]
    rfl

theorem wgo_eq_wgoP (l cur : List Char) :
    wgo cur l = (wgoP cur l).1 ++
      (if (wgoP cur l).2 = [] then [] else [(wgoP cur l).2.reverse]) := by
  induction l generalizing cur with
  | nil => by_cases h : cur = [] <;> simp [wgo, wgoP, h]
  | cons c cs ih =>
    by_cases hc : c = ' '
    · subst hc
      by_cases hcur : cur = [] <;> simp [wgo, wgoP, hcur, ih]
    · simp [wgo, wgoP, hc, ih]

theorem wgoP_append (a b cur : List Char) :
    wgoP cur (a ++ b) =
      ((wgoP cur a).1 ++ (wgoP ((wgoP cur a).2) b).1, (wgoP ((wgoP cur a).2) b).2) := by
  induction a generalizing cur with
  | nil => simp [wgoP]
  | cons c cs ih =>
    by_cases hc : c = ' '
    · subst hc
      by_cases hcur : cur = [] <;> simp [wgoP, hcur, ih, List.append_assoc]
    · simp [wgoP, hc, ih]

theorem wgoP_snd_ne_nil (a : List Char) (cur : List Char)
    (h1 : a ≠ []) (h2 : a.getLastD ' ' ≠ ' ') : (wgoP cur a).2 ≠ [] := by
  induction a generalizing cur with
  | nil => exact absurd rfl h1
  | cons c cs ih =>
    cases cs with
    | nil =>
      have hc : c ≠ ' ' := by simpa [List.getLastD] using h2
      simp [wgoP, hc]
    | cons d ds =>
      have h2' : (d :: ds).getLastD ' ' ≠ ' ' := by
        simpa [List.getLastD_cons] using h2
      by_cases hc : c = ' '
      · subst hc
        by_cases hcur : cur = [] <;> simp [wgoP, hcur] <;>
          exact ih _ (by simp) h2'
      · simp only [wgoP, if_neg hc]
        exact ih _ (by simp) h2'

theorem wgo_of_ne_nil (l cur : List Char) (h : cur ≠ []) :
    wgo cur l = (cur.reverse ++ l.takeWhile notSpace) :: wgo [] (l.dropWhile notSpace) := by
  induction l generalizing cur with
  | nil => simp [wgo, h]
  | cons c cs ih =>
    by_cases hc : c = ' '
    · subst hc
      simp [wgo, h, notSpace, List.takeWhile_cons, List.dropWhile_cons]
    · simp [wgo, hc, notSpace, List.takeWhile_cons, List.dropWhile_cons,
        ih (c :: cur) (by simp), List.append_assoc]

theorem wgo_nil_append (ad bd : List Char) :
    wgo [] (ad ++ bd) = (wgoP [] ad).1 ++ wgo ((wgoP [] ad).2) bd := by
  rw [wgo_eq_wgoP (ad ++ bd) [], wgoP_append, wgo_eq_wgoP bd ((wgoP [] ad).2)]
  simp [List.append_assoc]

theorem wtokens_split (s : String) (h1 : s.data ≠ []) (h2 : s.data.getLastD ' ' ≠ ' ') :
    wtokens s = ((wgoP [] s.data).1.map String.mk) ++
      [String.mk ((wgoP [] s.data).2.reverse)] := by
  have hp := wgoP_snd_ne_nil s.data [] h1 h2
  unfold wtokens
  rw [wgo_eq_wgoP s.data []]
  simp [hp]

theorem wtokens_append (a b : String) (h1 : a.data ≠ []) (h2 : a.data.getLastD ' ' ≠ ' ')
    (h3 : b.data.headD 'x' ≠ ' ') :
    wtokens (a ++ b) = (wtokens a).dropLast ++
      ((wtokens a).getLastD "" ++ (wtokens b).headD "") :: (wtokens b).tail := by
  have hp := wgoP_snd_ne_nil a.data [] h1 h2
  have hL : wtokens (a ++ b) =
      ((wgoP [] a.data).1.map String.mk) ++ (wgo ((wgoP [] a.data).2) b.data).map String.mk := by
    unfold wtokens
    rw [String.data_append, wgo_nil_append]
    simp
  have hsplit := wtokens_split a h1 h2
  have hdrop : (wtokens a).dropLast = (wgoP [] a.data).1.map String.mk := by
    rw [hsplit]
    simp
  have hlast : (wtokens a).getLastD "" = String.mk ((wgoP [] a.data).2.reverse) := by
    rw [hsplit]
    simp
  rw [hL, hdrop, hlast]
  congr 1
  rw [wgo_of_ne_nil b.data _ hp]
  cases hb : b.data with
  | nil =>
    simp [wtokens, hb, wgo]
  | cons c cs =>
    have hc : c ≠ ' ' := by simpa [hb] using h3
    have hbu : wgo [] (c :: cs) = wgo [c] cs := by
      simp [wgo, hc]
    have hcur : ([c] : List Char) ≠ [] := by simp
    rw [wgo_of_ne_nil cs [c] hcur] at hbu
    simp [wtokens, hb, hbu, notSpace, hc, List.takeWhile_cons, List.dropWhile_cons]
    rfl

theorem wgo_nospace (l cur : List Char) (h : ∀ c ∈ l, c ≠ ' ')
    (hne : ¬(cur = [] ∧ l = [])) : wgo cur l = [cur.reverse ++ l] := by
  induction l generalizing cur with
  | nil =>
    have : cur ≠ [] := fun hcur => hne ⟨hcur, rfl⟩
    simp [wgo, this]
  | cons c cs ih =>
    have hc : c ≠ ' ' := h c (by simp)
    have ihh : wgo (c :: cur) cs = [(c :: cur).reverse ++ cs] :=
      ih (c :: cur) (fun d hd => h d (by simp [hd])) (by simp)
    simp [wgo, hc, ihh, List.append_assoc]

theorem wtokens_nospace (s : String) (h1 : s.data ≠ [])
    (h2 : ∀ c ∈ s.data, c ≠ ' ') : wtokens s = [s] := by
  unfold wtokens
  rw [wgo_nospace s.data [] h2 (by simp [h1])]
  simp

theorem wgo_word_space (w rest cur : List Char) (hw : ∀ c ∈ w, c ≠ ' ')
    (hne : ¬(cur = [] ∧ w = [])) :
    wgo cur (w ++ ' ' :: rest) = (cur.reverse ++ w) :: wgo [] rest := by
  induction w generalizing cur with
  | nil =>
    have : cur ≠ [] := fun hcur => hne ⟨hcur, rfl⟩
    simp [wgo, this]
  | cons c w' ih =>
    have hc : c ≠ ' ' := hw c (by simp)
    have ihh := ih (c :: cur) (fun d hd => hw d (by simp [hd])) (by simp)
    simp [wgo, hc, ihh, List.append_assoc]

theorem isortSkipStr_cons₂ (f g : String) (t : List String) :
    isortSkipStr (f :: g :: t) = ("--skip=" ++ f) ++ " " ++ isortSkipStr (g :: t) := by
  apply String.ext
  simp only [isortSkipStr, pyJoin, String.data_append, List.append_assoc]
  have hsep : (" --skip=" : String).data = ' ' :: "--skip=".data := rfl
  have hone : (" " : String).data = [' '] := rfl
  simp [hsep, hone]

theorem skipLit_nospace : ∀ c ∈ ("--skip=" : String).data, c ≠ ' ' := by decide

theorem skipFlag_nospace (f : String) (hf : ∀ c ∈ f.data, c ≠ ' ') :
    ∀ c ∈ ("--skip=" ++ f).data, c ≠ ' ' := by
  intro c hc
  rw [String.data_append] at hc
  rcases List.mem_append.mp hc with h | h
  · exact skipLit_nospace c h
  · exact hf c h

theorem skipFlag_ne_nil (f : String) : ("--skip=" ++ f).data ≠ [] := by
  rw [String.data_append]
  intro h
  exact absurd (List.append_eq_nil.mp h).1 (by decide)

theorem wtokens_isort (f : String) (rest : List String)
    (hf : ∀ c ∈ f.data, c ≠ ' ')
    (hrest : ∀ g ∈ rest, ∀ c ∈ g.data, c ≠ ' ') :
    wtokens (isortSkipStr (f :: rest)) =
      ("--skip=" ++ f) :: rest.map (fun g => "--skip=" ++ g) := by
  induction rest generalizing f with
  | nil =>
    rw [show isortSkipStr [f] = "--skip=" ++ f from rfl]
    rw [wtokens_nospace _ (skipFlag_ne_nil f) (skipFlag_nospace f hf)]
    rfl
  | cons g t ih =>
    have hg : ∀ c ∈ g.data, c ≠ ' ' := hrest g (by simp)
    have ht : ∀ x ∈ t, ∀ c ∈ x.data, c ≠ ' ' := fun x hx => hrest x (by simp [hx])
    rw [isortSkipStr_cons₂]
    have hdata : ((("--skip=" ++ f) ++ " ") ++ isortSkipStr (g :: t)).data =
        ("--skip=" ++ f).data ++ ' ' :: (isortSkipStr (g :: t)).data := by
      simp [String.data_append]
    unfold wtokens
    rw [hdata, wgo_word_space _ _ [] (skipFlag_nospace f hf)
      (fun hand => absurd hand.2 (skipFlag_ne_nil f))]
    simp only [List.reverse_nil, List.nil_append, List.map]
    rw [show String.mk ("--skip=" ++ f).data = "--skip=" ++ f from rfl]
    have hih := ih g hg ht
    unfold wtokens at hih
    rw [hih]

theorem blackSkipAppend_eq (fns : List String) :
    blackSkipAppend fns = "--exclude=--exclude=" ++ pyJoin "|" fns := by
  show "--exclude=" ++ ("--exclude=" ++ pyJoin "|" fns) = _
  rw [← String.append_assoc]
  rfl

theorem pyJoinBar_nospace (l : List String) (h : ∀ g ∈ l, ∀ c ∈ g.data, c ≠ ' ') :
    ∀ c ∈ (pyJoin "|" l).data, c ≠ ' ' := by
  induction l with
  | nil => intro c hc; cases hc
  | cons x xs ih =>
    cases xs with
    | nil => exact h x (by simp)
    | cons y ys =>
      intro c hc
      simp only [pyJoin, String.data_append] at hc
      rcases List.mem_append.mp hc with h1 | h2
      · rcases List.mem_append.mp h1 with ha | hb
        · exact h x (by simp) c ha
        · revert hb
          have : ∀ c ∈ ("|" : String).data, c ≠ ' ' := by decide
          exact fun hb => this c hb
      · exact ih (fun g hg => h g (by simp [hg])) c h2

theorem blackLit_nospace : ∀ c ∈ ("--exclude=--exclude=" : String).data, c ≠ ' ' := by
  decide

theorem blackFlag_nospace (fns : List String)
    (h : ∀ g ∈ fns, ∀ c ∈ g.data, c ≠ ' ') :
    ∀ c ∈ ("--exclude=--exclude=" ++ pyJoin "|" fns).data, c ≠ ' ' := by
  intro c hc
  rw [String.data_append] at hc
  rcases List.mem_append.mp hc with h1 | h2
  · exact blackLit_nospace c h1
  · exact pyJoinBar_nospace fns h c h2

theorem blackFlag_ne_nil (fns : List String) :
    ("--exclude=--exclude=" ++ pyJoin "|" fns).data ≠ [] := by
  rw [String.data_append]
  intro h
  exact absurd (List.append_eq_nil.mp h).1 (by decide)

theorem wtokens_black (fns : List String)
    (h : ∀ g ∈ fns, ∀ c ∈ g.data, c ≠ ' ') :
    wtokens (blackSkipAppend fns) = ["--exclude=--exclude=" ++ pyJoin "|" fns] := by
  rw [blackSkipAppend_eq]
  exact wtokens_nospace _ (blackFlag_ne_nil fns) (blackFlag_nospace fns h)

theorem isortSkipStr_headD (fns : List String) :
    (isortSkipStr fns).data.headD 'x' = '-' := by
  show (("--skip=" ++ pyJoin " --skip=" fns) : String).data.headD 'x' = '-'
  rw [String.data_append]
  rfl

theorem blackSkipAppend_headD (fns : List String) :
    (blackSkipAppend fns).data.headD 'x' = '-' := by
  show (("--exclude=" ++ blackSkipStr fns) : String).data.headD 'x' = '-'
  rw [String.data_append]
  rfl

/-- C10: the exclusion flags are appended to the user-supplied extra
arguments with no separating space, so for a user string that does not end
in whitespace the whitespace splitting of the assembled string fuses the
user's last token with the first `--skip=` flag (isort side), and the
style-formatter side receives a single fused token ending in the doubled
`--exclude=--exclude=` exclusion flag. -/
theorem extra_args_token_merge (extraI extraB f : String) (rest : List String)
    (hI1 : extraI.data ≠ []) (hI2 : extraI.data.getLastD ' ' ≠ ' ')
    (hB1 : extraB.data ≠ []) (hB2 : extraB.data.getLastD ' ' ≠ ' ')
    (hf : ∀ c ∈ f.data, c ≠ ' ') (hrest : ∀ g ∈ rest, ∀ c ∈ g.data, c ≠ ' ') :
    wtokens (extraI ++ isortSkipStr (f :: rest)) =
        (wtokens extraI).dropLast ++
          ((wtokens extraI).getLastD "" ++ ("--skip=" ++ f)) ::
            rest.map (fun g => "--skip=" ++ g) ∧
      wtokens (extraB ++ blackSkipAppend (f :: rest)) =
        (wtokens extraB).dropLast ++
          [(wtokens extraB).getLastD "" ++
            ("--exclude=--exclude=" ++ pyJoin "|" (f :: rest))] := by
  have hfs : ∀ g ∈ f :: rest, ∀ c ∈ g.data, c ≠ ' ' := by
    intro g hg
    rcases List.mem_cons.mp hg with h | h
    · exact h ▸ hf
    · exact hrest g h
  constructor
  · rw [wtokens_append extraI _ hI1 hI2 (by rw [isortSkipStr_headD]; decide)]
    rw [wtokens_isort f rest hf hrest]
    rfl
  · rw [wtokens_append extraB _ hB1 hB2 (by rw [blackSkipAppend_headD]; decide)]
    rw [wtokens_black (f :: rest) hfs]
    rfl

/-- Witness for C10: extra isort argument `-v` and extra black argument
`-q` fuse with the first generated exclusion flag into single argv
tokens. -/
theorem extra_args_token_merge_witness :
    ("-v" : String).data ≠ [] ∧ ("-v" : String).data.getLastD ' ' ≠ ' ' ∧
      ("-q" : String).data ≠ [] ∧ ("-q" : String).data.getLastD ' ' ≠ ' ' ∧
      (∀ c ∈ ("foo.py" : String).data, c ≠ ' ') ∧
      (∀ g ∈ (["a.py"] : List String), ∀ c ∈ g.data, c ≠ ' ') ∧
      (wtokens ("-v" ++ isortSkipStr ["foo.py", "a.py"]) =
          (wtokens "-v").dropLast ++
            ((wtokens "-v").getLastD "" ++ ("--skip=" ++ "foo.py")) ::
              (["a.py"] : List String).map (fun g => "--skip=" ++ g) ∧
        wtokens ("-q" ++ blackSkipAppend ["foo.py", "a.py"]) =
          (wtokens "-q").dropLast ++
            [(wtokens "-q").getLastD "" ++
              ("--exclude=--exclude=" ++ pyJoin "|" ["foo.py", "a.py"])]) :=
  ⟨by decide, by decide, by decide, by decide, by decide, by decide,
   extra_args_token_merge "-v" "-q" "foo.py" ["a.py"]
     (by decide) (by decide) (by decide) (by decide) (by decide) (by decide)⟩

end PyfmtSpec
